import Mathlib

set_option maxRecDepth 8192

/-
Formal model of the LinkedIn enrichment selection-and-retry engine
(src/enrich_linkedin_profiles.py and src/lib/utils/linkedin_profile_utils.py).

Modelling conventions:
- Python strings are modelled as `List Char` where character-level operations
  matter (handle normalization), and as Lean `String` for opaque payloads.
- The module-level current time (`int(time.time() * 1000)`) is an explicit
  `now_ms : Nat` parameter (epoch milliseconds).
- SQL NULL is `Option.none`; a raw Apify profile (a Python dict) is an
  association list with string values; `dict.get` is association lookup.
- The database and HTTP collaborators are abstracted to their returned data.
-/

/-- Uppercase ASCII letters, the character set on which Python `str.lower`
acts in this program. -/
def upperChars : List Char :=
  ['A','B','C','D','E','F','G','H','I','J','K','L','M',
   'N','O','P','Q','R','S','T','U','V','W','X','Y','Z']

/-- Models Python `str.lower` on one character: uppercase ASCII letters map to
their lowercase counterpart, every other character is unchanged. -/
def pyLower (c : Char) : Char :=
  match c with
  | 'A' => 'a' | 'B' => 'b' | 'C' => 'c' | 'D' => 'd' | 'E' => 'e' | 'F' => 'f'
  | 'G' => 'g' | 'H' => 'h' | 'I' => 'i' | 'J' => 'j' | 'K' => 'k' | 'L' => 'l'
  | 'M' => 'm' | 'N' => 'n' | 'O' => 'o' | 'P' => 'p' | 'Q' => 'q' | 'R' => 'r'
  | 'S' => 's' | 'T' => 't' | 'U' => 'u' | 'V' => 'v' | 'W' => 'w' | 'X' => 'x'
  | 'Y' => 'y' | 'Z' => 'z'
  | _ => c

/-- Worker for `removeAll`.  Scans the list left to right; a positive `skip`
counter means the scanner is inside a matched occurrence whose remaining
characters are dropped without being re-examined.  This is exactly the
left-to-right, non-overlapping scan of Python `s.replace(pat, '')`. -/
def removeAllAux (pat : List Char) : List Char → Nat → List Char
  | [], _ => []
  | _ :: rest, skip+1 => removeAllAux pat rest skip
  | c :: rest, 0 =>
    if pat.isPrefixOf (c :: rest) then removeAllAux pat rest (pat.length - 1)
    else c :: removeAllAux pat rest 0

/-- Python `s.replace(pat, '')`: delete every left-to-right non-overlapping
occurrence of `pat` in `s`. -/
def removeAll (pat l : List Char) : List Char := removeAllAux pat l 0

/-- The character class stripped by `handle.strip('/')`. -/
def slashP (c : Char) : Bool := c == '/'

/-- Python `s.lstrip('/')`. -/
def lstrip (l : List Char) : List Char := l.dropWhile slashP

/-- Python `handle.strip('/')`: remove leading and trailing slashes. -/
def stripSlashes (l : List Char) : List Char :=
  ((lstrip l).reverse.dropWhile slashP).reverse

/-- The first URL prefix removed by `normalize_linkedin_handle`
(source line 26). -/
def pat1 : List Char := ("https://www.linkedin.com".data)

/-- The second URL prefix removed by `normalize_linkedin_handle`
(source line 27). -/
def pat2 : List Char := ("https://linkedin.com".data)

/-- The third URL prefix removed by `normalize_linkedin_handle`
(source line 28). -/
def pat3 : List Char := ("http://www.linkedin.com".data)

/-- The three recognized LinkedIn URL prefixes, in the order the source
replaces them. -/
def patsList : List (List Char) := [pat1, pat2, pat3]

/-- The path segment `in/` tested by `handle.startswith('in/')`. -/
def inPat : List Char := ['i', 'n', '/']

/-- The three `replace` calls of `normalize_linkedin_handle`, in source
order (lines 26-28). -/
def replacedCore (s : List Char) : List Char :=
  removeAll pat3 (removeAll pat2 (removeAll pat1 s))

/-- Lines 32-33 of the source: `if not handle.startswith('in/'):
handle = f'in/{handle}'`. -/
def ensureInSeg (h : List Char) : List Char :=
  if inPat.isPrefixOf h then h else 'i' :: 'n' :: '/' :: h

/-- `normalize_linkedin_handle` (linkedin_profile_utils.py lines 10-36):
strip the recognized URL prefixes, strip slashes at both ends, ensure the
`in/` prefix, prepend `/`, and lowercase the whole string. -/
def normalize_linkedin_handle (s : List Char) : List Char :=
  List.map pyLower ('/' :: ensureInSeg (stripSlashes (replacedCore s)))

/-- Scan for an occurrence of `pat` as a contiguous substring of `l`. -/
def occursIn (pat l : List Char) : Bool :=
  l.tails.any (fun s => pat.isPrefixOf s)

/-- `pat` has no nontrivial self-overlap: no proper nonempty suffix-start
`pat.drop k` is a prefix of `pat`. -/
def selfOverlapFree (pat : List Char) : Bool :=
  (List.range pat.length).all (fun k => k == 0 || !((pat.drop k).isPrefixOf pat))

/-- A raw Apify profile: a key/value mapping (Python dict) with string
values, modelled as an association list. -/
abbrev ApifyProfile : Type := List (String × String)

/-- Python `profile.get(key)`: the value at `key`, or `None` when absent. -/
def pget (p : ApifyProfile) (k : String) : Option String :=
  (p.find? (fun kv => kv.1 == k)).map Prod.snd

/-- Python `profile.get(key, default)`. -/
def pgetD (p : ApifyProfile) (k : String) (d : String) : String :=
  (pget p k).getD d

/-- Models `json.dumps(profile)`: the full raw profile serialized to a
single string. -/
def jsonDumps (p : ApifyProfile) : String :=
  String.intercalate (",") (p.map (fun kv => kv.1 ++ (":") ++ kv.2))

/-- One row returned by the selection query: the positional tuple
`record[0..4]` of the Python source (`github_user_id`, `social_link_url`,
`link_provider`, `linkedin_handle`, `COALESCE(retry_count, 0)`). -/
structure PendingRecord where
  github_user_id : Int
  social_link_url : Option String
  link_provider : Option String
  linkedin_handle : String
  retry_count : Nat
deriving DecidableEq

/-- The row persisted by the run.  Field names follow the column list of
`upsert_linkedin_profiles`; the field order matches the tuples built by
`build_enriched_profile_record` and `build_missing_profile_record`. -/
structure OutcomeRecord where
  github_user_id : Int
  social_link_url : Option String
  link_provider : Option String
  linkedin_handle : String
  record_source : String
  profile_found : Bool
  profile_fetch_message : Option String
  full_name : Option String
  first_name : Option String
  last_name : Option String
  headline : Option String
  about : Option String
  public_identifier : Option String
  linkedin_url : Option String
  connections : Option String
  followers : Option String
  job_title : Option String
  company_name : Option String
  company_industry : Option String
  company_website : Option String
  company_linkedin : Option String
  company_founded_in : Option String
  company_size : Option String
  current_job_duration_yrs : Option String
  address_with_country : Option String
  address_country_only : Option String
  address_without_country : Option String
  profile_pic_url : Option String
  profile_pic_high_quality_url : Option String
  top_skills_by_endorsements : Option String
  profile_data : Option String
  retry_count : Nat
  last_retry_at : Option Nat
  next_retry_after : Option Nat
deriving DecidableEq

/-- `build_enriched_profile_record` (linkedin_profile_utils.py lines 69-110):
the success-path builder. -/
def build_enriched_profile_record (apify_profile : ApifyProfile)
    (record : PendingRecord) : OutcomeRecord :=
  { github_user_id := record.github_user_id
    social_link_url := record.social_link_url
    link_provider := record.link_provider
    linkedin_handle := record.linkedin_handle
    record_source := "apify"
    profile_found := true
    profile_fetch_message := none
    full_name := pget apify_profile ("fullName")
    first_name := pget apify_profile ("firstName")
    last_name := pget apify_profile ("lastName")
    headline := pget apify_profile ("headline")
    about := pget apify_profile ("about")
    public_identifier := pget apify_profile ("publicIdentifier")
    linkedin_url := pget apify_profile ("linkedinUrl")
    connections := pget apify_profile ("connections")
    followers := pget apify_profile ("followers")
    job_title := pget apify_profile ("jobTitle")
    company_name := pget apify_profile ("companyName")
    company_industry := pget apify_profile ("companyIndustry")
    company_website := pget apify_profile ("companyWebsite")
    company_linkedin := pget apify_profile ("companyLinkedin")
    company_founded_in := pget apify_profile ("companyFoundedIn")
    company_size := pget apify_profile ("companySize")
    current_job_duration_yrs := pget apify_profile ("currentJobDurationInYrs")
    address_with_country := pget apify_profile ("addressWithCountry")
    address_country_only := pget apify_profile ("addressCountryOnly")
    address_without_country := pget apify_profile ("addressWithoutCountry")
    profile_pic_url := pget apify_profile ("profilePic")
    profile_pic_high_quality_url := pget apify_profile ("profilePicHighQuality")
    top_skills_by_endorsements := pget apify_profile ("topSkillsByEndorsements")
    profile_data := some (jsonDumps apify_profile)
    retry_count := 0
    last_retry_at := none
    next_retry_after := none }

/-- `build_missing_profile_record` (linkedin_profile_utils.py lines 113-140):
the miss-path builder.  In the Python source `current_retry_count` is a
defaulted parameter (`=0`) and `current_timestamp` is read from the module
clock; both are explicit arguments here. -/
def build_missing_profile_record (record : PendingRecord)
    (current_retry_count : Nat) (now_ms : Nat) : OutcomeRecord :=
  { github_user_id := record.github_user_id
    social_link_url := record.social_link_url
    link_provider := record.link_provider
    linkedin_handle := record.linkedin_handle
    record_source := "apify"
    profile_found := false
    profile_fetch_message := some ("Profile not returned by Apify API")
    full_name := none
    first_name := none
    last_name := none
    headline := none
    about := none
    public_identifier := none
    linkedin_url := none
    connections := none
    followers := none
    job_title := none
    company_name := none
    company_industry := none
    company_website := none
    company_linkedin := none
    company_founded_in := none
    company_size := none
    current_job_duration_yrs := none
    address_with_country := none
    address_country_only := none
    address_without_country := none
    profile_pic_url := none
    profile_pic_high_quality_url := none
    top_skills_by_endorsements := none
    profile_data := none
    retry_count := current_retry_count + 1
    last_retry_at := some now_ms
    next_retry_after := some (now_ms + ((current_retry_count + 1) ^ 2 * 5) * 60 * 1000) }

/-- The normalized key a profile is indexed under in the lookup dict. -/
def profileKey (p : ApifyProfile) : List Char :=
  normalize_linkedin_handle ((pgetD p ("publicIdentifier") "").data)

/-- Python truthiness of `publicIdentifier`: a nonempty string. -/
def hasIdP (p : ApifyProfile) : Prop :=
  pgetD p ("publicIdentifier") "" ≠ ""

instance (p : ApifyProfile) : Decidable (hasIdP p) := by
  unfold hasIdP; infer_instance

/-- The loop body of `create_lookup_from_apify_profiles`: skip profiles with
an empty `publicIdentifier`, otherwise overwrite the entry at the profile's
normalized key (a Python dict assignment). -/
def lookupStep (m : List Char → Option ApifyProfile) (profile : ApifyProfile) :
    List Char → Option ApifyProfile :=
  fun k =>
    if hasIdP profile ∧ k = profileKey profile then some profile else m k

/-- `create_lookup_from_apify_profiles` (linkedin_profile_utils.py lines
39-46): the handle-to-profile dict, modelled as a function built by folding
the insertions left to right. -/
def create_lookup_from_apify_profiles (apify_profiles : List ApifyProfile) :
    List Char → Option ApifyProfile :=
  apify_profiles.foldl lookupStep (fun _ => none)

/-- `match_record_to_apify_profile` (lines 49-52): look the record's
normalized handle up in the dict (`dict.get`, `None` when absent). -/
def match_record_to_apify_profile (record : PendingRecord)
    (apify_profile_lookup : List Char → Option ApifyProfile) :
    Option ApifyProfile :=
  apify_profile_lookup (normalize_linkedin_handle (record.linkedin_handle.data))

/-- `partition_records_by_profile_availability` (lines 55-66).  The Python
guard `if apify_profile:` is dict truthiness: `None` and the empty dict are
falsy. -/
def partition_records_by_profile_availability :
    List PendingRecord → (List Char → Option ApifyProfile) →
    List (ApifyProfile × PendingRecord) × List PendingRecord
  | [], _ => ([], [])
  | record :: rest, apify_profile_lookup =>
    let res := partition_records_by_profile_availability rest apify_profile_lookup
    match match_record_to_apify_profile record apify_profile_lookup with
    | some apify_profile =>
      if apify_profile.isEmpty then (res.1, record :: res.2)
      else ((apify_profile, record) :: res.1, res.2)
    | none => (res.1, record :: res.2)

/-- Steps 3-5 of `enrich_linkedin_profiles` (enrich_linkedin_profiles.py
lines 149-169), given the selected records and the profiles returned by the
fetch collaborator: build the lookup, partition, and build one output row
per record.  The miss path calls `build_missing_profile_record(record)`
WITHOUT passing the record's retry count (source line 164), so the default
`current_retry_count=0` applies; this model mirrors that call exactly. -/
def enrich_linkedin_profiles (pending_records : List PendingRecord)
    (apify_profiles : List ApifyProfile) (now_ms : Nat) : List OutcomeRecord :=
  let profile_lookup := create_lookup_from_apify_profiles apify_profiles
  let parts := partition_records_by_profile_availability pending_records profile_lookup
  (parts.1.map (fun pr => build_enriched_profile_record pr.1 pr.2)) ++
    (parts.2.map (fun record => build_missing_profile_record record 0 now_ms))

/-- Modelled from the spec: the fetch collaborator `get_linkedin_profiles`
(lib/apify, not under src/) either returns the fetched profiles or fails;
per the spec a failure is signalled to the caller, i.e. a raised exception.
`enrich_linkedin_profiles` installs no handler around the fetch call, so a
fetch failure propagates and ends the run before the upsert step; `Except`
makes that propagation explicit. -/
def run_with_fetch_result (pending_records : List PendingRecord)
    (fetch_result : Except String (List ApifyProfile)) (now_ms : Nat) :
    Except String (List OutcomeRecord) :=
  match fetch_result with
  | Except.error e => Except.error e
  | Except.ok apify_profiles =>
    Except.ok (enrich_linkedin_profiles pending_records apify_profiles now_ms)

/-- One stored row of `linkedin.user_details`, restricted to the columns the
selection query reads; SQL NULL is `none`. -/
structure UserDetailsRow where
  github_user_id : Int
  social_link_url : Option String
  link_provider : Option String
  linkedin_handle : Option String
  retry_count : Option Nat
  profile_found : Option Bool
  last_retry_at : Option Nat
  next_retry_after : Option Nat
deriving DecidableEq

/-- The WHERE clause of `fetch_records_pending_for_enrichment` (lines 33-44):
non-null handle AND (never enriched OR (failed AND retry_count < 3 AND
cooldown unset or elapsed)).  SQL three-valued logic agrees with this boolean
encoding here because a row is returned only when the clause is TRUE. -/
def pendingFilter (now_ms : Nat) (r : UserDetailsRow) : Bool :=
  r.linkedin_handle.isSome &&
    (r.retry_count.isNone ||
      ((r.profile_found == some false) &&
        (match r.retry_count with
         | some n => decide (n < 3)
         | none => false) &&
        (match r.next_retry_after with
         | some t => decide (t < now_ms)
         | none => true)))

/-- `last_retry_at ASC NULLS FIRST`. -/
def leNullsFirst : Option Nat → Option Nat → Bool
  | none, _ => true
  | some _, none => false
  | some x, some y => decide (x ≤ y)

/-- The ORDER BY key of the selection query:
`COALESCE(retry_count, 0) ASC, last_retry_at ASC NULLS FIRST`. -/
def rowLE (a b : UserDetailsRow) : Bool :=
  decide (a.retry_count.getD 0 < b.retry_count.getD 0) ||
    ((a.retry_count.getD 0 == b.retry_count.getD 0) &&
      leNullsFirst a.last_retry_at b.last_retry_at)

/-- Insertion step of a stable sort (models the SQL ORDER BY). -/
def insertLe {α : Type} (le : α → α → Bool) (x : α) : List α → List α
  | [] => [x]
  | y :: ys => if le x y then x :: y :: ys else y :: insertLe le x ys

/-- Insertion sort by a boolean comparison (models the SQL ORDER BY). -/
def sortLe {α : Type} (le : α → α → Bool) : List α → List α
  | [] => []
  | x :: xs => insertLe le x (sortLe le xs)

/-- The rows selected by `fetch_records_pending_for_enrichment` (lines
18-55) before projection: WHERE filter, ORDER BY, LIMIT. -/
def fetch_rows (table : List UserDetailsRow) (now_ms : Nat) (limit : Nat) :
    List UserDetailsRow :=
  (sortLe rowLE (table.filter (pendingFilter now_ms))).take limit

/-- The SELECT projection to the 5-tuple `record[0..4]`, with
`COALESCE(lud.retry_count, 0)`. -/
def projectPending (r : UserDetailsRow) : PendingRecord :=
  { github_user_id := r.github_user_id
    social_link_url := r.social_link_url
    link_provider := r.link_provider
    linkedin_handle := r.linkedin_handle.getD ""
    retry_count := r.retry_count.getD 0 }

/-- `fetch_records_pending_for_enrichment`: the records the run will process. -/
def fetch_records_pending_for_enrichment (table : List UserDetailsRow)
    (now_ms : Nat) (limit : Nat) : List PendingRecord :=
  (fetch_rows table now_ms limit).map projectPending

/-- A sample pending record used by concrete witnesses. -/
def sampleRecord : PendingRecord :=
  { github_user_id := 1
    social_link_url := some ("https://example.com/jdoe")
    link_provider := some ("linkedin")
    linkedin_handle := "in/jdoe"
    retry_count := 0 }

/-- A sample pending record already on its second retry. -/
def sampleRecordRetry2 : PendingRecord :=
  { github_user_id := 2
    social_link_url := some ("https://example.com/nomatch")
    link_provider := some ("linkedin")
    linkedin_handle := "in/nomatch"
    retry_count := 2 }

/-- A sample fetched profile for handle `jdoe`. -/
def sampleProfileA : ApifyProfile :=
  [("publicIdentifier", "jdoe"), ("fullName", "John Doe")]

/-- A sample fetched profile for handle `asmith`. -/
def sampleProfileB : ApifyProfile :=
  [("publicIdentifier", "asmith"), ("fullName", "Anne Smith")]

/-- A stored row eligible for selection (never attempted). -/
def sampleRowGood : UserDetailsRow :=
  { github_user_id := 1
    social_link_url := some ("https://example.com/jdoe")
    link_provider := some ("linkedin")
    linkedin_handle := some ("in/jdoe")
    retry_count := none
    profile_found := none
    last_retry_at := none
    next_retry_after := none }

/-- A stored row in terminal failure: found = false, retry_count = 3, and a
cooldown that has already elapsed at time 100. -/
def sampleRowTerminal : UserDetailsRow :=
  { github_user_id := 2
    social_link_url := some ("https://example.com/fail")
    link_provider := some ("linkedin")
    linkedin_handle := some ("in/fail")
    retry_count := some 3
    profile_found := some false
    last_retry_at := some 10
    next_retry_after := some 20 }

/-! ### Character-level lemmas -/

theorem pyLower_of_not_upper (c : Char) (h : c ∉ upperChars) : pyLower c = c := by
  unfold pyLower
  split
  all_goals first | rfl | simp_all [upperChars]

theorem pyLower_idem (c : Char) : pyLower (pyLower c) = pyLower c := by
  by_cases h : c ∈ upperChars
  · simp only [upperChars, List.mem_cons, List.not_mem_nil, or_false] at h
    rcases h with rfl|rfl|rfl|rfl|rfl|rfl|rfl|rfl|rfl|rfl|rfl|rfl|rfl|rfl|rfl|rfl|rfl|rfl|rfl|rfl|rfl|rfl|rfl|rfl|rfl|rfl
    all_goals decide
  · rw [pyLower_of_not_upper c h, pyLower_of_not_upper c h]

theorem pyLower_ne_slash (c : Char) (h : c ≠ '/') : pyLower c ≠ '/' := by
  by_cases hu : c ∈ upperChars
  · simp only [upperChars, List.mem_cons, List.not_mem_nil, or_false] at hu
    rcases hu with rfl|rfl|rfl|rfl|rfl|rfl|rfl|rfl|rfl|rfl|rfl|rfl|rfl|rfl|rfl|rfl|rfl|rfl|rfl|rfl|rfl|rfl|rfl|rfl|rfl|rfl
    all_goals decide
  · rw [pyLower_of_not_upper c hu]; exact h

theorem pyLower_slash : pyLower '/' = '/' := rfl

theorem pyLower_i : pyLower 'i' = 'i' := rfl

theorem pyLower_n : pyLower 'n' = 'n' := rfl

theorem map_pyLower_idem (l : List Char) :
    List.map pyLower (List.map pyLower l) = List.map pyLower l := by
  induction l with
  | nil => rfl
  | cons c t ih => simp [List.map_cons, pyLower_idem, ih]

/-! ### Lemmas about `removeAll` (Python `str.replace(pat, '')`) -/

theorem removeAllAux_skip (pat : List Char) (xs : List Char) :
    ∀ (l : List Char) (m : Nat),
      removeAllAux pat (xs ++ l) (xs.length + m) = removeAllAux pat l m := by
  induction xs with
  | nil => intro l m; simp only [List.nil_append, List.length_nil, Nat.zero_add]
  | cons x xs ih =>
    intro l m
    have hlen : (x :: xs).length + m = (xs.length + m) + 1 := by
      simp [List.length_cons]; omega
    rw [hlen, List.cons_append]
    show removeAllAux pat (xs ++ l) (xs.length + m) = removeAllAux pat l m
    exact ih l m

theorem removeAllAux_append_self (pat : List Char) (hne : pat ≠ []) (B : List Char) :
    removeAllAux pat (pat ++ B) 0 = removeAllAux pat B 0 := by
  obtain ⟨p, ps, rfl⟩ : ∃ p ps, pat = p :: ps := by
    cases pat with
    | nil => exact absurd rfl hne
    | cons p ps => exact ⟨p, ps, rfl⟩
  rw [List.cons_append]
  show (if (p :: ps).isPrefixOf (p :: (ps ++ B)) then
          removeAllAux (p :: ps) (ps ++ B) ((p :: ps).length - 1)
        else p :: removeAllAux (p :: ps) (ps ++ B) 0) = removeAllAux (p :: ps) B 0
  have hpre : (p :: ps).isPrefixOf (p :: (ps ++ B)) = true := by
    rw [List.isPrefixOf_iff_prefix, ← List.cons_append]
    exact List.prefix_append (p :: ps) B
  rw [if_pos hpre]
  have hlen : (p :: ps).length - 1 = ps.length + 0 := by simp
  rw [hlen]
  exact removeAllAux_skip (p :: ps) ps B 0

theorem removeAllAux_of_noMatch (pat : List Char) :
    ∀ (l : List Char), (∀ s, s <:+ l → ¬ pat <+: s) → removeAllAux pat l 0 = l := by
  intro l
  induction l with
  | nil => intro _; rfl
  | cons c rest ih =>
    intro h
    show (if pat.isPrefixOf (c :: rest) then
            removeAllAux pat rest (pat.length - 1)
          else c :: removeAllAux pat rest 0) = c :: rest
    have hnp : pat.isPrefixOf (c :: rest) = false := by
      rw [← Bool.not_eq_true, List.isPrefixOf_iff_prefix]
      exact h (c :: rest) (List.suffix_refl _)
    rw [hnp]
    simp only [Bool.false_eq_true, if_false]
    congr 1
    exact ih (fun s hs => h s (hs.trans (List.suffix_cons c rest)))

theorem occursIn_false_noMatch {pat l : List Char} (h : occursIn pat l = false) :
    ∀ s, s <:+ l → ¬ pat <+: s := by
  intro s hs hp
  have hmem : s ∈ l.tails := (List.mem_tails s l).mpr hs
  have : l.tails.any (fun s => pat.isPrefixOf s) = true :=
    List.any_eq_true.mpr ⟨s, hmem, List.isPrefixOf_iff_prefix.mpr hp⟩
  rw [occursIn] at h
  rw [h] at this
  exact Bool.false_ne_true this

theorem occursIn_false_not_infix {pat l : List Char} (h : occursIn pat l = false) :
    ¬ pat <:+: l := by
  intro hinf
  obtain ⟨t, hpt, hts⟩ := List.infix_iff_prefix_suffix.mp hinf
  exact occursIn_false_noMatch h t hts hpt

theorem removeAll_of_not_occurs {pat l : List Char} (h : occursIn pat l = false) :
    removeAll pat l = l :=
  removeAllAux_of_noMatch pat l (occursIn_false_noMatch h)

theorem selfOverlapFree_not_prefix {pat : List Char} (h : selfOverlapFree pat = true) :
    ∀ k, 0 < k → k < pat.length → ¬ (pat.drop k <+: pat) := by
  intro k hk0 hklen hpre
  have hmem : k ∈ List.range pat.length := List.mem_range.mpr hklen
  have hb := List.all_eq_true.mp h k hmem
  simp only [Bool.or_eq_true, beq_iff_eq, Bool.not_eq_true'] at hb
  rcases hb with hb | hb
  · omega
  · rw [← Bool.not_eq_true, List.isPrefixOf_iff_prefix] at hb
    exact hb hpre

theorem spliceNoMatch {pat A B : List Char} (hsf : selfOverlapFree pat = true)
    (hocc : occursIn pat (A ++ B) = false) :
    ∀ s, s <:+ A → s ≠ [] → ¬ pat <+: (s ++ (pat ++ B)) := by
  intro s hs hne hpre
  rcases le_or_lt pat.length s.length with hle | hlt
  · have hps : pat <+: s := (List.isPrefix_append_of_length hle).mp hpre
    obtain ⟨u, hu⟩ := hs
    obtain ⟨v, hv⟩ := hps
    have : pat <:+: (A ++ B) := ⟨u, v ++ B, by rw [← hu, ← hv]; simp [List.append_assoc]⟩
    exact occursIn_false_not_infix hocc this
  · obtain ⟨w, hw⟩ := hpre
    -- `hw : pat ++ w = s ++ (pat ++ B)`, with `s` shorter than `pat`
    have hsp : s <+: pat := by
      have h1 : s <+: pat ++ w := ⟨pat ++ B, hw.symm⟩
      exact (List.isPrefix_append_of_length (Nat.le_of_lt hlt)).mp h1
    have hdrop : pat.drop s.length ++ w = pat ++ B := by
      have := congrArg (List.drop s.length) hw
      rwa [List.drop_append_of_le_length (Nat.le_of_lt hlt), List.drop_left] at this
    have hdp : pat.drop s.length <+: pat := by
      have h1 : pat.drop s.length <+: pat ++ B := ⟨w, hdrop⟩
      have h2 : (pat.drop s.length).length ≤ pat.length := by
        rw [List.length_drop]; omega
      exact (List.isPrefix_append_of_length h2).mp h1
    have hk0 : 0 < s.length := List.length_pos.mpr hne
    exact selfOverlapFree_not_prefix hsf s.length hk0 hlt hdp

theorem removeAllAux_splice (pat B : List Char) (hne : pat ≠ []) :
    ∀ (A : List Char), (∀ s, s <:+ A → s ≠ [] → ¬ pat <+: (s ++ (pat ++ B))) →
      removeAllAux pat (A ++ (pat ++ B)) 0 = A ++ removeAllAux pat B 0 := by
  intro A
  induction A with
  | nil =>
    intro _
    simp only [List.nil_append]
    exact removeAllAux_append_self pat hne B
  | cons a A ih =>
    intro h
    rw [List.cons_append]
    show (if pat.isPrefixOf (a :: (A ++ (pat ++ B))) then
            removeAllAux pat (A ++ (pat ++ B)) (pat.length - 1)
          else a :: removeAllAux pat (A ++ (pat ++ B)) 0) =
      (a :: A) ++ removeAllAux pat B 0
    have hnp : pat.isPrefixOf (a :: (A ++ (pat ++ B))) = false := by
      rw [← Bool.not_eq_true, List.isPrefixOf_iff_prefix]
      intro hp
      exact h (a :: A) (List.suffix_refl _) (List.cons_ne_nil a A)
        (by rwa [List.cons_append])
    rw [hnp]
    simp only [Bool.false_eq_true, if_false, List.cons_append]
    congr 1
    exact ih (fun s hs hsne => h s (hs.trans (List.suffix_cons a A)) hsne)

theorem removeAll_splice_full {pat A B : List Char} (hsf : selfOverlapFree pat = true)
    (hne : pat ≠ []) (hocc : occursIn pat (A ++ B) = false) :
    removeAll pat (A ++ pat ++ B) = A ++ B := by
  have hB : removeAllAux pat B 0 = B := by
    apply removeAllAux_of_noMatch
    intro s hs
    apply occursIn_false_noMatch hocc
    obtain ⟨t, ht⟩ := hs
    exact ⟨A ++ t, by rw [List.append_assoc, ht]⟩
  rw [removeAll, List.append_assoc,
    removeAllAux_splice pat B hne A (spliceNoMatch hsf hocc), hB]

/-! ### Lemmas about `stripSlashes` and `ensureInSeg` -/

theorem dropWhile_slash_shape (m : List Char) :
    m.dropWhile slashP = [] ∨
      ∃ c w, m.dropWhile slashP = c :: w ∧ slashP c = false := by
  induction m with
  | nil => exact Or.inl rfl
  | cons c m ih =>
    by_cases hc : slashP c = true
    · rw [List.dropWhile_cons_of_pos hc]; exact ih
    · rw [List.dropWhile_cons_of_neg hc]
      exact Or.inr ⟨c, m, rfl, Bool.not_eq_true _ |>.mp hc⟩

theorem stripSlashes_shape (l : List Char) :
    stripSlashes l = [] ∨
      ∃ u c, stripSlashes l = u ++ [c] ∧ slashP c = false := by
  unfold stripSlashes
  rcases dropWhile_slash_shape ((lstrip l).reverse) with h | ⟨c, w, h, hc⟩
  · rw [h]; exact Or.inl rfl
  · rw [h]
    exact Or.inr ⟨w.reverse, c, by rw [List.reverse_cons], hc⟩

theorem ensureInSeg_shape (h : List Char) :
    ∃ t, ensureInSeg h = 'i' :: 'n' :: '/' :: t ∧ (t = h ∨ h = 'i' :: 'n' :: '/' :: t) := by
  unfold ensureInSeg
  by_cases hp : inPat.isPrefixOf h = true
  · obtain ⟨t, ht⟩ := List.isPrefixOf_iff_prefix.mp hp
    have hh : h = 'i' :: 'n' :: '/' :: t := by rw [← ht]; rfl
    rw [if_pos hp]
    exact ⟨t, hh, Or.inr hh⟩
  · rw [if_neg hp]
    exact ⟨h, rfl, Or.inl rfl⟩

theorem ensureInSeg_of_in (t : List Char) :
    ensureInSeg ('i' :: 'n' :: '/' :: t) = 'i' :: 'n' :: '/' :: t := by
  unfold ensureInSeg
  rw [if_pos]
  simp [inPat, List.isPrefixOf]

theorem stripSlashes_of_clean (M : List Char) (d : Char) (hd : d ≠ '/') :
    stripSlashes ('/' :: 'i' :: 'n' :: '/' :: (M ++ [d])) =
      'i' :: 'n' :: '/' :: (M ++ [d]) := by
  have hdP : slashP d = false := by
    simp only [slashP, beq_eq_false_iff_ne, ne_eq]
    exact hd
  have hiP : slashP 'i' = false := by decide
  unfold stripSlashes lstrip
  rw [List.dropWhile_cons_of_pos (by decide : slashP '/' = true),
    List.dropWhile_cons_of_neg (by simp [hiP])]
  have hrev : ('i' :: 'n' :: '/' :: (M ++ [d])).reverse =
      d :: (('i' :: 'n' :: '/' :: M).reverse) := by
    have : 'i' :: 'n' :: '/' :: (M ++ [d]) = ('i' :: 'n' :: '/' :: M) ++ [d] := by
      simp
    rw [this, List.reverse_append, List.reverse_singleton]
    rfl
  rw [hrev, List.dropWhile_cons_of_neg (by simp [hdP]), ← hrev, List.reverse_reverse]

theorem slashP_false_ne {c : Char} (hc : slashP c = false) : c ≠ '/' := by
  simpa [slashP] using hc

theorem normalize_shape (x : List Char) :
    normalize_linkedin_handle x = ['/', 'i', 'n', '/'] ∨
      ∃ T c, c ≠ '/' ∧
        normalize_linkedin_handle x =
          List.map pyLower ('/' :: 'i' :: 'n' :: '/' :: (T ++ [c])) := by
  unfold normalize_linkedin_handle
  rcases stripSlashes_shape (replacedCore x) with hnil | ⟨u, c, he, hc⟩
  · rw [hnil]
    left
    rfl
  · rw [he]
    obtain ⟨t, het, hcase⟩ := ensureInSeg_shape (u ++ [c])
    rw [het]
    rcases hcase with h1 | h2
    · exact Or.inr ⟨u, c, slashP_false_ne hc, by rw [h1]⟩
    · rcases List.eq_nil_or_concat t with rfl | ⟨t₀, c₀, rfl⟩
      · exfalso
        have hcc : c = '/' := by
          have h3 := congrArg List.getLast? h2
          rw [List.getLast?_concat] at h3
          simpa using h3
        exact slashP_false_ne hc hcc
      · have hc₀ : c₀ = c := by
          have h3 : u ++ [c] = ('i' :: 'n' :: '/' :: t₀) ++ [c₀] := by
            rw [h2]; simp
          have h4 := congrArg List.getLast? h3
          rw [List.getLast?_concat, List.getLast?_concat] at h4
          exact (Option.some_inj.mp h4).symm
        rw [hc₀]
        exact Or.inr ⟨t₀, c, slashP_false_ne hc, by simp [List.concat_eq_append]⟩

/-- C6 (corrected): `normalize_linkedin_handle` is idempotent on every
non-empty input whose normalization neither contains one of the three
recognized URL prefixes as a substring nor collapses to the bare `/in/`.
(The unrestricted claim is refuted by `normalize_not_idempotent_cex`.) -/
theorem normalize_idem_restricted (x : List Char) (_hx : x ≠ [])
    (h1 : occursIn pat1 (normalize_linkedin_handle x) = false)
    (h2 : occursIn pat2 (normalize_linkedin_handle x) = false)
    (h3 : occursIn pat3 (normalize_linkedin_handle x) = false)
    (h4 : normalize_linkedin_handle x ≠ ['/', 'i', 'n', '/']) :
    normalize_linkedin_handle (normalize_linkedin_handle x) =
      normalize_linkedin_handle x := by
  rcases normalize_shape x with hy | ⟨T, c, hc, hy⟩
  · exact absurd hy h4
  · have hyshape : normalize_linkedin_handle x =
        '/' :: 'i' :: 'n' :: '/' :: (List.map pyLower T ++ [pyLower c]) := by
      rw [hy]
      simp [List.map_cons, List.map_append, pyLower_slash, pyLower_i, pyLower_n]
    have hlow : List.map pyLower (normalize_linkedin_handle x) =
        normalize_linkedin_handle x := by
      rw [hy]; exact map_pyLower_idem _
    have hrc : replacedCore (normalize_linkedin_handle x) =
        normalize_linkedin_handle x := by
      unfold replacedCore
      rw [removeAll_of_not_occurs h1, removeAll_of_not_occurs h2,
        removeAll_of_not_occurs h3]
    show List.map pyLower
        ('/' :: ensureInSeg (stripSlashes (replacedCore (normalize_linkedin_handle x)))) =
      normalize_linkedin_handle x
    rw [hrc, hyshape, stripSlashes_of_clean _ _ (pyLower_ne_slash c hc), ensureInSeg_of_in,
      ← hyshape, hlow]

/-- C6 counterexample: the non-empty input `"/"` breaks idempotence:
`normalize("/") = "/in/"` but `normalize("/in/") = "/in/in"`. -/
theorem normalize_not_idempotent_cex :
    (("/".data) ≠ ([] : List Char)) ∧
      normalize_linkedin_handle (normalize_linkedin_handle (("/".data))) ≠
        normalize_linkedin_handle (("/".data)) := by decide

/-- Witness for `normalize_idem_restricted` at the concrete input `"Foo"`. -/
theorem normalize_idem_restricted_witness :
    normalize_linkedin_handle (normalize_linkedin_handle (("Foo".data))) =
      normalize_linkedin_handle (("Foo".data)) :=
  normalize_idem_restricted (("Foo".data)) (by decide) (by decide) (by decide)
    (by decide) (by decide)

/-- C10 (corrected): the three URL-prefix substrings are removed by Python
`str.replace` semantics — a left-to-right non-overlapping pass, anywhere in
the string, not only as a leading prefix.  When the splice creates no new
occurrence of any of the three patterns, a reference with an embedded
occurrence normalizes to the same key as the reference without it.  (The
unrestricted claim is refuted by `normalize_embedded_cex`.) -/
theorem normalize_removes_embedded (A B p : List Char) (hp : p ∈ patsList)
    (hAB : ∀ q ∈ patsList, occursIn q (A ++ B) = false)
    (hins : ∀ q ∈ patsList, q ≠ p → occursIn q (A ++ p ++ B) = false) :
    normalize_linkedin_handle (A ++ p ++ B) = normalize_linkedin_handle (A ++ B) := by
  have h1 := hAB pat1 (by simp [patsList])
  have h2 := hAB pat2 (by simp [patsList])
  have h3 := hAB pat3 (by simp [patsList])
  have hcore : replacedCore (A ++ p ++ B) = A ++ B := by
    simp only [patsList, List.mem_cons, List.not_mem_nil, or_false] at hp
    rcases hp with rfl | rfl | rfl
    · unfold replacedCore
      rw [removeAll_splice_full (by decide) (by decide) h1,
        removeAll_of_not_occurs h2, removeAll_of_not_occurs h3]
    · unfold replacedCore
      rw [removeAll_of_not_occurs (hins pat1 (by simp [patsList]) (by decide)),
        removeAll_splice_full (by decide) (by decide) h2,
        removeAll_of_not_occurs h3]
    · unfold replacedCore
      rw [removeAll_of_not_occurs (hins pat1 (by simp [patsList]) (by decide)),
        removeAll_of_not_occurs (hins pat2 (by simp [patsList]) (by decide)),
        removeAll_splice_full (by decide) (by decide) h3]
  have hcore2 : replacedCore (A ++ B) = A ++ B := by
    unfold replacedCore
    rw [removeAll_of_not_occurs h1, removeAll_of_not_occurs h2,
      removeAll_of_not_occurs h3]
  unfold normalize_linkedin_handle
  rw [hcore, hcore2]

/-- C10 counterexample: removing the unique occurrence of
`https://www.linkedin.com` from `htt<PAT>ps://www.linkedin.com` splices the
surrounding text into a fresh occurrence, which survives normalization;
hence the two references differing only by that embedded substring get
different keys. -/
theorem normalize_embedded_cex :
    occursIn pat1
        (normalize_linkedin_handle
          (("htt".data) ++ pat1 ++ ("ps://www.linkedin.com".data))) = true ∧
      normalize_linkedin_handle (("htt".data) ++ pat1 ++ ("ps://www.linkedin.com".data)) ≠
        normalize_linkedin_handle (("htt".data) ++ ("ps://www.linkedin.com".data)) := by
  decide

/-- Witness for `normalize_removes_embedded`: an embedded (non-leading)
occurrence of `https://linkedin.com` is removed. -/
theorem normalize_removes_embedded_witness :
    normalize_linkedin_handle (("in/abc".data) ++ pat2 ++ ("def".data)) =
      normalize_linkedin_handle (("in/abc".data) ++ ("def".data)) :=
  normalize_removes_embedded (("in/abc".data)) (("def".data)) pat2 (by decide)
    (by decide) (by decide)

/-! ### Claim theorems about the record builders -/

/-- C3 (confirmed): the retry scheduler inside `build_missing_profile_record`
computes `new_retry_count = prior + 1`, `last_retry_at = now_ms`,
`next_retry_after = now_ms + (new_retry_count^2 * 5) * 60000` (5, 20, 45
minutes for new_retry_count 1, 2, 3), and the cooldown delta is strictly
increasing in the retry count. -/
theorem build_missing_retry_schedule (record : PendingRecord)
    (prior : Nat) (now_ms : Nat) :
    (build_missing_profile_record record prior now_ms).retry_count = prior + 1 ∧
    (build_missing_profile_record record prior now_ms).last_retry_at = some now_ms ∧
    (build_missing_profile_record record prior now_ms).next_retry_after =
      some (now_ms + ((prior + 1) ^ 2 * 5) * 60000) ∧
    (build_missing_profile_record record 0 now_ms).next_retry_after =
      some (now_ms + 5 * 60000) ∧
    (build_missing_profile_record record 1 now_ms).next_retry_after =
      some (now_ms + 20 * 60000) ∧
    (build_missing_profile_record record 2 now_ms).next_retry_after =
      some (now_ms + 45 * 60000) ∧
    (∀ p q : Nat, p < q →
      ∃ a b, (build_missing_profile_record record p now_ms).next_retry_after = some a ∧
        (build_missing_profile_record record q now_ms).next_retry_after = some b ∧
        a < b) := by
  refine ⟨rfl, rfl, ?_, ?_, ?_, ?_, ?_⟩
  · show some (now_ms + ((prior + 1) ^ 2 * 5) * 60 * 1000) =
      some (now_ms + ((prior + 1) ^ 2 * 5) * 60000)
    congr 1
    ring
  · show some (now_ms + ((0 + 1) ^ 2 * 5) * 60 * 1000) = some (now_ms + 5 * 60000)
    norm_num
  · show some (now_ms + ((1 + 1) ^ 2 * 5) * 60 * 1000) = some (now_ms + 20 * 60000)
    norm_num
  · show some (now_ms + ((2 + 1) ^ 2 * 5) * 60 * 1000) = some (now_ms + 45 * 60000)
    norm_num
  · intro p q hpq
    refine ⟨_, _, rfl, rfl, ?_⟩
    have hsq : (p + 1) ^ 2 < (q + 1) ^ 2 :=
      Nat.pow_lt_pow_left (Nat.succ_lt_succ hpq) (by norm_num)
    show now_ms + ((p + 1) ^ 2 * 5) * 60 * 1000 <
      now_ms + ((q + 1) ^ 2 * 5) * 60 * 1000
    nlinarith [hsq]

/-- Witness for `build_missing_retry_schedule`: the record of `sampleRecord`
on its third miss carries retry_count 3, and the cooldown delta strictly
grows from the first to the second retry. -/
theorem build_missing_retry_schedule_witness :
    (build_missing_profile_record sampleRecord 2 1000).retry_count = 3 ∧
      (∃ a b, (build_missing_profile_record sampleRecord 1 1000).next_retry_after = some a ∧
        (build_missing_profile_record sampleRecord 2 1000).next_retry_after = some b ∧
        a < b) :=
  ⟨(build_missing_retry_schedule sampleRecord 2 1000).1,
   (build_missing_retry_schedule sampleRecord 0 1000).2.2.2.2.2.2 1 2 (by decide)⟩

/-- C4 counterexample: at a concrete input, the miss-path message is
`Profile not returned by Apify API`, not the fixed message
`Profile not returned by provider` stated by the spec. -/
theorem build_missing_message_cex :
    (build_missing_profile_record sampleRecord 0 0).profile_fetch_message ≠
      some ("Profile not returned by provider") ∧
    (build_missing_profile_record sampleRecord 0 0).profile_fetch_message =
      some ("Profile not returned by Apify API") := by
  constructor
  · decide
  · rfl

/-- C4 (corrected): the miss-path builder nulls every profile field and the
raw-profile blob, sets found = false, and uses the fixed message
`Profile not returned by Apify API`. -/
theorem build_missing_miss_fields (record : PendingRecord)
    (prior : Nat) (now_ms : Nat) :
    (build_missing_profile_record record prior now_ms).profile_found = false ∧
    (build_missing_profile_record record prior now_ms).profile_fetch_message =
      some ("Profile not returned by Apify API") ∧
    (build_missing_profile_record record prior now_ms).full_name = none ∧
    (build_missing_profile_record record prior now_ms).first_name = none ∧
    (build_missing_profile_record record prior now_ms).last_name = none ∧
    (build_missing_profile_record record prior now_ms).headline = none ∧
    (build_missing_profile_record record prior now_ms).about = none ∧
    (build_missing_profile_record record prior now_ms).public_identifier = none ∧
    (build_missing_profile_record record prior now_ms).linkedin_url = none ∧
    (build_missing_profile_record record prior now_ms).connections = none ∧
    (build_missing_profile_record record prior now_ms).followers = none ∧
    (build_missing_profile_record record prior now_ms).job_title = none ∧
    (build_missing_profile_record record prior now_ms).company_name = none ∧
    (build_missing_profile_record record prior now_ms).company_industry = none ∧
    (build_missing_profile_record record prior now_ms).company_website = none ∧
    (build_missing_profile_record record prior now_ms).company_linkedin = none ∧
    (build_missing_profile_record record prior now_ms).company_founded_in = none ∧
    (build_missing_profile_record record prior now_ms).company_size = none ∧
    (build_missing_profile_record record prior now_ms).current_job_duration_yrs = none ∧
    (build_missing_profile_record record prior now_ms).address_with_country = none ∧
    (build_missing_profile_record record prior now_ms).address_country_only = none ∧
    (build_missing_profile_record record prior now_ms).address_without_country = none ∧
    (build_missing_profile_record record prior now_ms).profile_pic_url = none ∧
    (build_missing_profile_record record prior now_ms).profile_pic_high_quality_url = none ∧
    (build_missing_profile_record record prior now_ms).top_skills_by_endorsements = none ∧
    (build_missing_profile_record record prior now_ms).profile_data = none := by
  and_intros <;> rfl

/-- C5 (confirmed): the success-path builder sets found = true, a null
message, retry_count 0, cleared retry timestamps, copies every profile field
from the fetched profile via `dict.get` (absent fields map to null, as the
empty-profile conjuncts illustrate), copies the record identity fields, and
archives the full raw profile as a serialized blob. -/
theorem build_enriched_success_fields (apify_profile : ApifyProfile)
    (record : PendingRecord) :
    (build_enriched_profile_record apify_profile record).profile_found = true ∧
    (build_enriched_profile_record apify_profile record).profile_fetch_message = none ∧
    (build_enriched_profile_record apify_profile record).retry_count = 0 ∧
    (build_enriched_profile_record apify_profile record).last_retry_at = none ∧
    (build_enriched_profile_record apify_profile record).next_retry_after = none ∧
    (build_enriched_profile_record apify_profile record).github_user_id =
      record.github_user_id ∧
    (build_enriched_profile_record apify_profile record).social_link_url =
      record.social_link_url ∧
    (build_enriched_profile_record apify_profile record).link_provider =
      record.link_provider ∧
    (build_enriched_profile_record apify_profile record).linkedin_handle =
      record.linkedin_handle ∧
    (build_enriched_profile_record apify_profile record).full_name =
      pget apify_profile ("fullName") ∧
    (build_enriched_profile_record apify_profile record).first_name =
      pget apify_profile ("firstName") ∧
    (build_enriched_profile_record apify_profile record).last_name =
      pget apify_profile ("lastName") ∧
    (build_enriched_profile_record apify_profile record).headline =
      pget apify_profile ("headline") ∧
    (build_enriched_profile_record apify_profile record).about =
      pget apify_profile ("about") ∧
    (build_enriched_profile_record apify_profile record).public_identifier =
      pget apify_profile ("publicIdentifier") ∧
    (build_enriched_profile_record apify_profile record).linkedin_url =
      pget apify_profile ("linkedinUrl") ∧
    (build_enriched_profile_record apify_profile record).connections =
      pget apify_profile ("connections") ∧
    (build_enriched_profile_record apify_profile record).followers =
      pget apify_profile ("followers") ∧
    (build_enriched_profile_record apify_profile record).job_title =
      pget apify_profile ("jobTitle") ∧
    (build_enriched_profile_record apify_profile record).company_name =
      pget apify_profile ("companyName") ∧
    (build_enriched_profile_record apify_profile record).company_industry =
      pget apify_profile ("companyIndustry") ∧
    (build_enriched_profile_record apify_profile record).company_website =
      pget apify_profile ("companyWebsite") ∧
    (build_enriched_profile_record apify_profile record).company_linkedin =
      pget apify_profile ("companyLinkedin") ∧
    (build_enriched_profile_record apify_profile record).company_founded_in =
      pget apify_profile ("companyFoundedIn") ∧
    (build_enriched_profile_record apify_profile record).company_size =
      pget apify_profile ("companySize") ∧
    (build_enriched_profile_record apify_profile record).current_job_duration_yrs =
      pget apify_profile ("currentJobDurationInYrs") ∧
    (build_enriched_profile_record apify_profile record).address_with_country =
      pget apify_profile ("addressWithCountry") ∧
    (build_enriched_profile_record apify_profile record).address_country_only =
      pget apify_profile ("addressCountryOnly") ∧
    (build_enriched_profile_record apify_profile record).address_without_country =
      pget apify_profile ("addressWithoutCountry") ∧
    (build_enriched_profile_record apify_profile record).profile_pic_url =
      pget apify_profile ("profilePic") ∧
    (build_enriched_profile_record apify_profile record).profile_pic_high_quality_url =
      pget apify_profile ("profilePicHighQuality") ∧
    (build_enriched_profile_record apify_profile record).top_skills_by_endorsements =
      pget apify_profile ("topSkillsByEndorsements") ∧
    (build_enriched_profile_record apify_profile record).profile_data =
      some (jsonDumps apify_profile) ∧
    (build_enriched_profile_record [] record).full_name = none ∧
    (build_enriched_profile_record [] record).top_skills_by_endorsements = none := by
  and_intros <;> rfl

/-! ### Lemmas about the handle-to-profile lookup -/

theorem lookupStep_untouched (m : List Char → Option ApifyProfile)
    (q : ApifyProfile) (k : List Char) (h : ¬ (hasIdP q ∧ k = profileKey q)) :
    lookupStep m q k = m k := by
  unfold lookupStep
  rw [if_neg h]

theorem foldl_lookupStep_untouched (ps : List ApifyProfile) :
    ∀ (m : List Char → Option ApifyProfile) (k : List Char),
      (∀ q ∈ ps, ¬ (hasIdP q ∧ k = profileKey q)) →
      List.foldl lookupStep m ps k = m k := by
  induction ps with
  | nil => intro m k _; rfl
  | cons p ps ih =>
    intro m k h
    rw [List.foldl_cons,
      ih (lookupStep m p) k (fun q hq => h q (List.mem_cons_of_mem p hq))]
    exact lookupStep_untouched m p k (h p (List.mem_cons_self p ps))

theorem foldl_lookupStep_hit (ps₂ : List ApifyProfile) (p : ApifyProfile)
    (m : List Char → Option ApifyProfile) (hid : hasIdP p)
    (hlater : ∀ q ∈ ps₂, hasIdP q → profileKey q ≠ profileKey p) :
    List.foldl lookupStep m (p :: ps₂) (profileKey p) = some p := by
  rw [List.foldl_cons,
    foldl_lookupStep_untouched ps₂ (lookupStep m p) (profileKey p)
      (fun q hq hconj => hlater q hq hconj.1 hconj.2.symm)]
  unfold lookupStep
  rw [if_pos ⟨hid, rfl⟩]

theorem create_lookup_last_write (ps₁ : List ApifyProfile) (p : ApifyProfile)
    (ps₂ : List ApifyProfile) (hid : hasIdP p)
    (hlater : ∀ q ∈ ps₂, hasIdP q → profileKey q ≠ profileKey p) :
    create_lookup_from_apify_profiles (ps₁ ++ p :: ps₂) (profileKey p) = some p := by
  unfold create_lookup_from_apify_profiles
  rw [List.foldl_append]
  exact foldl_lookupStep_hit ps₂ p _ hid hlater

theorem foldl_lookupStep_some (ps : List ApifyProfile) :
    ∀ (m : List Char → Option ApifyProfile) (k : List Char) (q : ApifyProfile),
      List.foldl lookupStep m ps k = some q →
      (q ∈ ps ∧ hasIdP q ∧ k = profileKey q) ∨ m k = some q := by
  induction ps with
  | nil => intro m k q h; exact Or.inr h
  | cons p ps ih =>
    intro m k q h
    rw [List.foldl_cons] at h
    rcases ih (lookupStep m p) k q h with ⟨hmem, hq⟩ | hbase
    · exact Or.inl ⟨List.mem_cons_of_mem p hmem, hq⟩
    · unfold lookupStep at hbase
      by_cases hcond : hasIdP p ∧ k = profileKey p
      · rw [if_pos hcond] at hbase
        obtain rfl : p = q := Option.some_inj.mp hbase
        exact Or.inl ⟨List.mem_cons_self _ _, hcond⟩
      · rw [if_neg hcond] at hbase
        exact Or.inr hbase

theorem create_lookup_some (ps : List ApifyProfile) (k : List Char)
    (q : ApifyProfile) (h : create_lookup_from_apify_profiles ps k = some q) :
    q ∈ ps ∧ hasIdP q ∧ k = profileKey q := by
  unfold create_lookup_from_apify_profiles at h
  rcases foldl_lookupStep_some ps _ k q h with hgood | hbase
  · exact hgood
  · exact Option.noConfusion hbase

theorem create_lookup_hit_of_nodup (ps : List ApifyProfile) (q : ApifyProfile)
    (hnd : (ps.map profileKey).Nodup) (hq : q ∈ ps) (hid : hasIdP q) :
    create_lookup_from_apify_profiles ps (profileKey q) = some q := by
  obtain ⟨ps₁, ps₂, rfl⟩ := List.append_of_mem hq
  refine create_lookup_last_write ps₁ q ps₂ hid ?_
  intro r hr _ he
  have hnd2 : ((profileKey q :: ps₂.map profileKey)).Nodup := by
    have h1 : (ps₁.map profileKey ++ profileKey q :: ps₂.map profileKey).Nodup := by
      simpa using hnd
    exact h1.of_append_right
  have hnotmem : profileKey q ∉ ps₂.map profileKey := (List.nodup_cons.mp hnd2).1
  exact hnotmem (List.mem_map.mpr ⟨r, hr, he⟩)

theorem create_lookup_perm_eq (ps ps' : List ApifyProfile) (hperm : ps.Perm ps')
    (hnd : (ps.map profileKey).Nodup) (k : List Char) :
    create_lookup_from_apify_profiles ps k =
      create_lookup_from_apify_profiles ps' k := by
  have hnd' : (ps'.map profileKey).Nodup := ((hperm.map profileKey).nodup_iff).mp hnd
  cases hc : create_lookup_from_apify_profiles ps k with
  | some q =>
    obtain ⟨hmem, hid, rfl⟩ := create_lookup_some ps k q hc
    exact (create_lookup_hit_of_nodup ps' q hnd' (hperm.mem_iff.mp hmem) hid).symm
  | none =>
    cases hc' : create_lookup_from_apify_profiles ps' k with
    | none => rfl
    | some q =>
      obtain ⟨hmem', hid, rfl⟩ := create_lookup_some ps' _ q hc'
      have h2 := create_lookup_hit_of_nodup ps q hnd (hperm.mem_iff.mpr hmem') hid
      rw [h2] at hc
      exact Option.noConfusion hc

/-- C7 (confirmed): matching is keyed solely by the normalized handle — for
profile lists with pairwise-distinct normalized public identifiers,
permuting the fetched profiles changes no record's match; and with
colliding keys the later profile in the input sequence wins. -/
theorem matching_keyed_by_normalized_handle :
    (∀ (ps ps' : List ApifyProfile), ps.Perm ps' →
      (ps.map profileKey).Nodup →
      ∀ record : PendingRecord,
        match_record_to_apify_profile record (create_lookup_from_apify_profiles ps) =
          match_record_to_apify_profile record (create_lookup_from_apify_profiles ps')) ∧
    (∀ (ps₁ : List ApifyProfile) (p : ApifyProfile) (ps₂ : List ApifyProfile),
      hasIdP p → (∀ q ∈ ps₂, hasIdP q → profileKey q ≠ profileKey p) →
      create_lookup_from_apify_profiles (ps₁ ++ p :: ps₂) (profileKey p) = some p) := by
  constructor
  · intro ps ps' hperm hnd record
    unfold match_record_to_apify_profile
    exact create_lookup_perm_eq ps ps' hperm hnd _
  · intro ps₁ p ps₂ hid hlater
    exact create_lookup_last_write ps₁ p ps₂ hid hlater

/-- Witness for `matching_keyed_by_normalized_handle` on two concrete
profiles: swapping them changes no match, and the later of two entries with
the same key wins. -/
theorem matching_keyed_by_normalized_handle_witness :
    match_record_to_apify_profile sampleRecord
        (create_lookup_from_apify_profiles [sampleProfileA, sampleProfileB]) =
      match_record_to_apify_profile sampleRecord
        (create_lookup_from_apify_profiles [sampleProfileB, sampleProfileA]) ∧
    create_lookup_from_apify_profiles ([sampleProfileA] ++ sampleProfileB :: [])
        (profileKey sampleProfileB) = some sampleProfileB :=
  ⟨matching_keyed_by_normalized_handle.1 [sampleProfileA, sampleProfileB]
      [sampleProfileB, sampleProfileA]
      (List.Perm.swap sampleProfileB sampleProfileA []) (by decide) sampleRecord,
   matching_keyed_by_normalized_handle.2 [sampleProfileA] sampleProfileB []
      (by decide) (by decide)⟩

/-! ### Partition and orchestrator lemmas -/

theorem partition_cons_none (record : PendingRecord) (rest : List PendingRecord)
    (lk : List Char → Option ApifyProfile)
    (hm : match_record_to_apify_profile record lk = none) :
    partition_records_by_profile_availability (record :: rest) lk =
      ((partition_records_by_profile_availability rest lk).1,
        record :: (partition_records_by_profile_availability rest lk).2) := by
  simp [partition_records_by_profile_availability, hm]

theorem partition_cons_empty (record : PendingRecord) (rest : List PendingRecord)
    (lk : List Char → Option ApifyProfile) (p : ApifyProfile)
    (hm : match_record_to_apify_profile record lk = some p) (hp : p.isEmpty = true) :
    partition_records_by_profile_availability (record :: rest) lk =
      ((partition_records_by_profile_availability rest lk).1,
        record :: (partition_records_by_profile_availability rest lk).2) := by
  simp [partition_records_by_profile_availability, hm, hp]

theorem partition_cons_some (record : PendingRecord) (rest : List PendingRecord)
    (lk : List Char → Option ApifyProfile) (p : ApifyProfile)
    (hm : match_record_to_apify_profile record lk = some p) (hp : p.isEmpty = false) :
    partition_records_by_profile_availability (record :: rest) lk =
      ((p, record) :: (partition_records_by_profile_availability rest lk).1,
        (partition_records_by_profile_availability rest lk).2) := by
  simp [partition_records_by_profile_availability, hm, hp]

theorem partition_perm (pending : List PendingRecord)
    (lk : List Char → Option ApifyProfile) :
    ((partition_records_by_profile_availability pending lk).1.map Prod.snd ++
      (partition_records_by_profile_availability pending lk).2).Perm pending := by
  induction pending with
  | nil => simp [partition_records_by_profile_availability]
  | cons record rest ih =>
    cases hm : match_record_to_apify_profile record lk with
    | none =>
      rw [partition_cons_none record rest lk hm]
      exact (List.perm_middle).trans (ih.cons record)
    | some p =>
      cases hp : p.isEmpty with
      | true =>
        rw [partition_cons_empty record rest lk p hm hp]
        exact (List.perm_middle).trans (ih.cons record)
      | false =>
        rw [partition_cons_some record rest lk p hm hp]
        simp only [List.map_cons, List.cons_append]
        exact ih.cons record

/-- C8 (confirmed): the partition assigns every selected record to exactly
one of the matched or missing lists (their concatenation is a permutation of
the input), the two lengths add up to the number of selected records, and
the run builds exactly one outcome record per pending record. -/
theorem partition_and_run_counts (pending : List PendingRecord)
    (lk : List Char → Option ApifyProfile)
    (apify_profiles : List ApifyProfile) (now_ms : Nat) :
    ((partition_records_by_profile_availability pending lk).1.map Prod.snd ++
      (partition_records_by_profile_availability pending lk).2).Perm pending ∧
    (partition_records_by_profile_availability pending lk).1.length +
      (partition_records_by_profile_availability pending lk).2.length =
        pending.length ∧
    (enrich_linkedin_profiles pending apify_profiles now_ms).length =
      pending.length := by
  refine ⟨partition_perm pending lk, ?_, ?_⟩
  · have h := (partition_perm pending lk).length_eq
    simpa [List.length_append, List.length_map] using h
  · have h := (partition_perm pending
      (create_lookup_from_apify_profiles apify_profiles)).length_eq
    simp only [List.length_append, List.length_map] at h
    simp only [enrich_linkedin_profiles, List.length_append, List.length_map]
    exact h

/-- C1 (code bug evaluated): in the modelled run, a record selected with
retry_count = 2 that misses again is persisted with retry_count 1, because
`enrich_linkedin_profiles` calls `build_missing_profile_record(record)`
without passing the record's retry count; the claim (and spec) require 3. -/
theorem enrich_miss_retry_count_eval :
    (enrich_linkedin_profiles [sampleRecordRetry2] [] 0).map
        (fun o => o.retry_count) = [1] ∧ (1 : Nat) ≠ 2 + 1 := by
  decide

/-- C9 (confirmed, modelled from the spec): when the fetch collaborator
fails, the failure propagates and the run produces no outcome records — the
write phase is never reached. -/
theorem fetch_failure_aborts_write (pending_records : List PendingRecord)
    (e : String) (now_ms : Nat) :
    run_with_fetch_result pending_records (Except.error e) now_ms =
      Except.error e ∧
    (run_with_fetch_result pending_records (Except.error e) now_ms).toOption =
      none :=
  ⟨rfl, rfl⟩

/-! ### Selection query lemmas -/

theorem insertLe_perm {α : Type} (le : α → α → Bool) (x : α) :
    ∀ l : List α, (insertLe le x l).Perm (x :: l) := by
  intro l
  induction l with
  | nil => exact List.Perm.refl _
  | cons y ys ih =>
    show (if le x y then x :: y :: ys else y :: insertLe le x ys).Perm (x :: y :: ys)
    by_cases h : le x y = true
    · rw [if_pos h]
    · rw [if_neg h]
      exact (ih.cons y).trans (List.Perm.swap x y ys)

theorem sortLe_perm {α : Type} (le : α → α → Bool) :
    ∀ l : List α, (sortLe le l).Perm l := by
  intro l
  induction l with
  | nil => exact List.Perm.refl _
  | cons x xs ih =>
    show (insertLe le x (sortLe le xs)).Perm (x :: xs)
    exact (insertLe_perm le x (sortLe le xs)).trans (ih.cons x)

theorem mem_fetch_rows_filter {table : List UserDetailsRow} {now_ms limit : Nat}
    {row : UserDetailsRow} (h : row ∈ fetch_rows table now_ms limit) :
    pendingFilter now_ms row = true := by
  unfold fetch_rows at h
  have h1 : row ∈ sortLe rowLE (table.filter (pendingFilter now_ms)) :=
    List.take_subset _ _ h
  have h2 : row ∈ table.filter (pendingFilter now_ms) :=
    ((sortLe_perm rowLE _).mem_iff).mp h1
  exact (List.mem_filter.mp h2).2

/-- C2 (confirmed): every row returned by the selection query has a non-null
handle and is either never attempted (retry counter unset) or failed
(found = false) with retry_count < 3 and its cooldown unset or elapsed; in
particular a found = false row with retry_count ≥ 3 is never returned, even
when its cooldown has elapsed. -/
theorem fetch_rows_eligibility (table : List UserDetailsRow)
    (now_ms limit : Nat) :
    (∀ row ∈ fetch_rows table now_ms limit,
      row.linkedin_handle ≠ none ∧
        (row.retry_count = none ∨
          (row.profile_found = some false ∧
            (∃ n, row.retry_count = some n ∧ n < 3) ∧
            (row.next_retry_after = none ∨
              ∃ t, row.next_retry_after = some t ∧ t < now_ms)))) ∧
    (∀ (row : UserDetailsRow) (n : Nat), row.profile_found = some false →
      row.retry_count = some n → 3 ≤ n →
      row ∉ fetch_rows table now_ms limit) := by
  constructor
  · intro row hrow
    have hf := mem_fetch_rows_filter hrow
    unfold pendingFilter at hf
    simp only [Bool.and_eq_true, Bool.or_eq_true, Option.isSome_iff_exists,
      Option.isNone_iff_eq_none, beq_iff_eq, decide_eq_true_eq] at hf
    obtain ⟨⟨handle, hhandle⟩, hrest⟩ := hf
    refine ⟨by simp [hhandle], ?_⟩
    rcases hrest with hnone | ⟨⟨hfound, hretry⟩, hcool⟩
    · exact Or.inl hnone
    · refine Or.inr ⟨hfound, ?_, ?_⟩
      · cases hrc : row.retry_count with
        | none => rw [hrc] at hretry; exact absurd hretry (by simp)
        | some n =>
          rw [hrc] at hretry
          exact ⟨n, rfl, by simpa using hretry⟩
      · cases hna : row.next_retry_after with
        | none => exact Or.inl rfl
        | some t =>
          rw [hna] at hcool
          exact Or.inr ⟨t, rfl, by simpa using hcool⟩
  · intro row n hfound hretry hge hrow
    have hf := mem_fetch_rows_filter hrow
    unfold pendingFilter at hf
    rw [hretry, hfound] at hf
    simp only [Bool.and_eq_true, Bool.or_eq_true, Option.isNone_some,
      decide_eq_true_eq] at hf
    rcases hf with ⟨_, hbad | ⟨⟨_, hlt⟩, _⟩⟩
    · exact Bool.false_ne_true hbad
    · omega

/-- Witness for `fetch_rows_eligibility` on a concrete two-row table: the
never-attempted row satisfies the eligibility shape, and the terminal row
(found = false, retry_count = 3, cooldown elapsed at time 100) is not
returned. -/
theorem fetch_rows_eligibility_witness :
    (sampleRowGood.linkedin_handle ≠ none ∧
      (sampleRowGood.retry_count = none ∨
        (sampleRowGood.profile_found = some false ∧
          (∃ n, sampleRowGood.retry_count = some n ∧ n < 3) ∧
          (sampleRowGood.next_retry_after = none ∨
            ∃ t, sampleRowGood.next_retry_after = some t ∧ t < 100)))) ∧
    sampleRowTerminal ∉ fetch_rows [sampleRowGood, sampleRowTerminal] 100 5 :=
  ⟨(fetch_rows_eligibility [sampleRowGood, sampleRowTerminal] 100 5).1
      sampleRowGood (by decide),
   (fetch_rows_eligibility [sampleRowGood, sampleRowTerminal] 100 5).2
      sampleRowTerminal 3 rfl rfl (by decide)⟩
